import Mathlib

/-!
Shallow embedding of the core of the `now` repository's in-memory indexer
(`src/now_executors/docarray_indexer/docarray_indexer_v3.py`, class
`DocarrayIndexerV3`) together with the small slice of the `docarray`
library semantics (`DocumentArray.extend`, slicing, traversal, id lookup,
`find(filter=...)`, `remove`, `match`) that the executor relies on.

Modelling conventions:
* `Doc` mirrors `docarray.Document` restricted to the attributes the
  executor touches: `id`, `uri`, `tags`, `parent_id`, `embedding`,
  `chunks`, `matches`.  Embeddings are integer vectors; the floating
  point similarity used by `DocumentArray.match` is abstracted into an
  opaque integer scoring parameter (no claim below depends on the ranking
  produced by the metric, only on counts, ids and state).
* Python dicts are association lists in insertion order; dict assignment
  updates in place when the key exists and appends otherwise, `del`
  removes the key.
* Python exceptions (`KeyError`, `IndexError`, `ValueError`, ...) are
  `Except.error` values.
-/

/-- Scalar tag values (string / integer / boolean), as stored in
`Document.tags`. -/
inductive TagValue where
  | str (s : String)
  | int (n : Int)
  | boolean (b : Bool)
deriving DecidableEq, Repr

/-- An operator dictionary of a filter leaf, e.g. `{"$eq": "red"}`:
insertion-ordered mapping from operator name to argument. -/
abbrev OpDict := List (String × TagValue)

/-- One conjunct of a `$and` filter, e.g. `{"color": {"$eq": "red"}}`:
insertion-ordered mapping from key (tag name or attribute path) to an
operator dictionary. -/
abbrev FilterLeaf := List (String × OpDict)

/-- A filter expression of the shape the executor and its callers use: an
optional top-level `"$and"` entry holding a list of conjuncts, plus the
remaining top-level entries (leaf predicates keyed directly by a field
path).  The executor itself only ever distinguishes the `$and` entry
(`'$and' in filter.keys()`), which this stratified representation captures
directly.  `none`/`[]` is the empty dict `{}`. -/
structure QFilter where
  andClauses : Option (List FilterLeaf) := none
  plain : List (String × OpDict) := []
deriving DecidableEq, Repr

/-- `docarray.Document`, restricted to the attributes the executor reads
or writes.  `chunks` and `matches` are themselves documents, so the type
is a nested inductive. -/
inductive Doc where
  | mk (id : String) (uri : String) (tags : List (String × TagValue))
       (parentId : String) (embedding : List Int)
       (chunks : List Doc) (matchList : List Doc)
deriving Repr

namespace Doc

def id : Doc → String
  | .mk i _ _ _ _ _ _ => i

def uri : Doc → String
  | .mk _ u _ _ _ _ _ => u

def tags : Doc → List (String × TagValue)
  | .mk _ _ t _ _ _ _ => t

def parentId : Doc → String
  | .mk _ _ _ p _ _ _ => p

def embedding : Doc → List Int
  | .mk _ _ _ _ e _ _ => e

def chunks : Doc → List Doc
  | .mk _ _ _ _ _ c _ => c

/-- The `.matches` attribute (`matches` is a Lean keyword, hence the
renamed projection). -/
def matchList : Doc → List Doc
  | .mk _ _ _ _ _ _ m => m

/-- Assignment `d.chunks = cs`. -/
def setChunks : Doc → List Doc → Doc
  | .mk i u t p e _ m, cs => .mk i u t p e cs m

/-- Assignment `d.matches = ms`. -/
def setMatches : Doc → List Doc → Doc
  | .mk i u t p e c _, ms => .mk i u t p e c ms

end Doc

mutual

/-- Content equality of documents, as `docarray.Document.__eq__` compares
document contents (the type is a nested inductive, so the instance is
written by hand). -/
def Doc.beq : Doc → Doc → Bool
  | .mk i u t p e c m, .mk i' u' t' p' e' c' m' =>
    decide (i = i') && decide (u = u') && decide (t = t') && decide (p = p') &&
      decide (e = e') && Doc.beqList c c' && Doc.beqList m m'

/-- Elementwise `Doc.beq` on lists. -/
def Doc.beqList : List Doc → List Doc → Bool
  | [], [] => true
  | x :: xs, y :: ys => Doc.beq x y && Doc.beqList xs ys
  | _, _ => false

end

instance : BEq Doc := ⟨Doc.beq⟩

/-- Python dict read `d.get(k)`. -/
def dictGet {α : Type} (d : List (String × α)) (k : String) : Option α :=
  (d.find? (fun e => e.1 = k)).map (fun e => e.2)

/-- Python dict assignment `d[k] = v`: updates the value in place when the
key is present, otherwise appends the new entry (insertion order). -/
def dictSet {α : Type} (d : List (String × α)) (k : String) (v : α) : List (String × α) :=
  if d.any (fun e => e.1 = k) then
    d.map (fun e => if e.1 = k then (k, v) else e)
  else d ++ [(k, v)]

/-- Python dict deletion `del d[k]`. -/
def dictDel {α : Type} (d : List (String × α)) (k : String) : List (String × α) :=
  d.filter (fun e => e.1 ≠ k)

/-- `sys.maxsize` on a 64-bit platform. -/
def maxsize : Nat := 9223372036854775807

/-- The lightweight projection `Document(id=d.id, uri=d.uri, tags=d.tags)`
built by the `/list` endpoint (all other attributes default). -/
def lightweightDoc (d : Doc) : Doc :=
  .mk d.id d.uri d.tags "" [] [] []

/-- Id lookup `document_array[some_id]`: docarray keeps an id-to-offset map
in which a later document with the same id overwrites the entry, so the
lookup resolves to the last occurrence; a missing id is a `KeyError`. -/
def lookupId (idx : List Doc) (pid : String) : Option Doc :=
  idx.reverse.find? (fun d => d.id == pid)

/-- Traversal `document_array[traversal_paths]` for the two paths the
executor and its tests use: `"@r"` (the root documents themselves) and
`"@c"` (the flattened chunks of the root documents).  docarray supports
further paths; they are not exercised here. -/
def docTraverse (idx : List Doc) (tp : String) : Except String (List Doc) :=
  if tp = "@r" then .ok idx
  else if tp = "@c" then .ok (idx.flatMap Doc.chunks)
  else .error ("unmodelled traversal path " ++ tp)

/-- The operator names docarray's query language accepts; anything else is
rejected with a `ValueError` when the query parser is built. -/
def supportedOps : List String :=
  ["$lt", "$gt", "$lte", "$gte", "$eq", "$neq", "$exists", "$in", "$nin", "$regex", "$size"]

/-- Splits a key of the form `tags__<k>` into its suffix `k` (docarray's
dunder lookup splits the path at the double underscore and descends into
the `tags` dict).  Written over the character list so that it evaluates by
`rfl`. -/
def stripTagsKey (key : String) : Option String :=
  match key.data with
  | 't' :: 'a' :: 'g' :: 's' :: '_' :: '_' :: rest => some (String.mk rest)
  | _ => none

/-- Resolution of a dunder key path on a document, as docarray's lookup
does: `tags__<k>` reads `tags.get(k)` (missing keys give `None`), a plain
key reads the document attribute of that name, and an attribute the
document does not have raises `AttributeError`. -/
def evalPath (d : Doc) (key : String) : Except String (Option TagValue) :=
  match stripTagsKey key with
  | some k => .ok (dictGet d.tags k)
  | none =>
    if key = "id" then .ok (some (.str d.id))
    else if key = "uri" then .ok (some (.str d.uri))
    else if key = "parent_id" then .ok (some (.str d.parentId))
    else .error ("AttributeError: " ++ key)

/-- Ordering comparisons, defined for int/int and str/str operand pairs as
in Python; other combinations (in particular a `None` left operand) raise
`TypeError`. -/
def evalCmp (dv : Option TagValue) (v : TagValue)
    (intCmp : Int → Int → Bool) (strCmp : String → String → Bool) : Except String Bool :=
  match dv, v with
  | some (.int a), .int b => .ok (intCmp a b)
  | some (.str a), .str b => .ok (strCmp a b)
  | _, _ => .error "TypeError: unsupported comparison operands"

/-- Evaluation of a single operator of a filter leaf against the resolved
document value.  `$in`, `$nin`, `$regex` and `$size` need list/regex/number
arguments that the scalar `TagValue` cannot carry; no claim exercises
them, so they evaluate to a `TypeError` here. -/
def evalOpEntry (dv : Option TagValue) (op : String) (v : TagValue) : Except String Bool :=
  if op = "$eq" then .ok (decide (dv = some v))
  else if op = "$neq" then .ok (!decide (dv = some v))
  else if op = "$exists" then
    match v with
    | .boolean b => .ok (dv.isSome == b)
    | _ => .error "TypeError: $exists expects a boolean"
  else if op = "$lt" then evalCmp dv v (fun a b => decide (a < b)) (fun a b => decide (a < b))
  else if op = "$lte" then evalCmp dv v (fun a b => decide (a ≤ b)) (fun a b => decide (a ≤ b))
  else if op = "$gt" then evalCmp dv v (fun a b => decide (b < a)) (fun a b => decide (b < a))
  else if op = "$gte" then evalCmp dv v (fun a b => decide (b ≤ a)) (fun a b => decide (b ≤ a))
  else if op ∈ supportedOps then .error ("TypeError: unmodelled operator " ++ op)
  else .error ("ValueError: the operator " ++ op ++ " is not supported")

/-- Evaluation of one filter leaf entry `key: {op1: v1, ...}` against a
document (conjunction over the operator dictionary). -/
def evalLeafEntry (d : Doc) (key : String) (ops : OpDict) : Except String Bool := do
  let dv ← evalPath d key
  ops.foldlM (fun acc e => do
    let b ← evalOpEntry dv e.1 e.2
    pure (acc && b)) true

/-- Evaluation of a `$and` conjunct (conjunction over its entries). -/
def evalLeaf (d : Doc) (leaf : FilterLeaf) : Except String Bool :=
  leaf.foldlM (fun acc e => do
    let b ← evalLeafEntry d e.1 e.2
    pure (acc && b)) true

/-- Evaluation of a whole filter against a document: conjunction of all
`$and` conjuncts and of all remaining top-level leaf entries. -/
def evalQFilter (d : Doc) (f : QFilter) : Except String Bool := do
  let a ← (f.andClauses.getD []).foldlM (fun acc leaf => do
    let b ← evalLeaf d leaf
    pure (acc && b)) true
  let b ← evalLeaf d f.plain
  pure (a && b)

/-- All operator names occurring in a filter. -/
def opsOfQFilter (f : QFilter) : List String :=
  (f.andClauses.getD []).flatMap (fun l => l.flatMap (fun e => e.2.map (fun o => o.1)))
    ++ f.plain.flatMap (fun e => e.2.map (fun o => o.1))

/-- The query-parser construction step: docarray rejects a filter holding
an operator outside `supportedOps` with a `ValueError` before any document
is examined. -/
def validateOps (f : QFilter) : Except String Unit :=
  match (opsOfQFilter f).find? (fun op => !(supportedOps.contains op)) with
  | some op => .error ("ValueError: the operator " ++ op ++ " is not supported")
  | none => .ok ()

/-- `document_array.find(filter=f)`: a falsy (empty) filter selects every
document; otherwise the parser is built (rejecting unknown operators) and
the documents satisfying the filter are returned in store order. -/
def findWithFilter (idx : List Doc) (f : QFilter) : Except String (List Doc) :=
  if f = {} then .ok idx
  else do
    validateOps f
    idx.filterM (fun d => evalQFilter d f)

/-- `document_array.remove(m)`: removes the first stored document equal to
`m` (Python raises `ValueError` when no element matches; the executor only
removes documents it just obtained from `find`, so that case does not
arise in the modelled flows). -/
def removeFirst : List Doc → Doc → List Doc
  | [], _ => []
  | x :: xs, m => if x == m then xs else x :: removeFirst xs m

/-- Insertion step of the ranking sort. -/
def insertByScore (score : Doc → Int) (x : Doc) : List Doc → List Doc
  | [] => [x]
  | y :: ys => if score x ≤ score y then x :: y :: ys else y :: insertByScore score x ys

/-- Stable sort of the candidates by the (abstracted) metric value. -/
def sortByScore (score : Doc → Int) : List Doc → List Doc
  | [] => []
  | x :: xs => insertByScore score x (sortByScore score xs)

/-- `q.match(candidates, limit=lim)` for one query document: the top `lim`
candidates ranked by the metric.  The floating-point cosine metric is
abstracted into the integer `score` parameter; every theorem below that
involves matching holds for an arbitrary `score`. -/
def matchTop (score : Doc → Doc → Int) (q : Doc) (cands : List Doc) (lim : Nat) : List Doc :=
  (sortByScore (score q) cands).take lim

/-- A concrete instance of the abstract scorer (dot product of the integer
embeddings), used to evaluate the executor on explicit inputs. -/
def dotScore (q d : Doc) : Int :=
  (q.embedding.zip d.embedding).foldl (fun acc p => acc + p.1 * p.2) 0

/-- The executor's per-instance state: the `traversal_paths` constructor
argument and the `self.index` document array. -/
structure ExecState where
  traversal_paths : String := "@r"
  index : List Doc := []
deriving Repr

/-- The request `parameters` dict, restricted to the keys the endpoints
read (plus `ids`, which callers may send on `/delete`); an absent key is
`none`. -/
structure Params where
  limit : Option Nat := none
  offset : Option Nat := none
  traversal_paths : Option String := none
  filter : QFilter := {}
  ids : Option (List String) := none
deriving Repr


namespace DocarrayIndexerV3

/-- The `/index` endpoint: `self.index.extend(docs)` followed by returning
an empty array.  `DocumentArray.extend` appends the incoming documents in
order; it performs no id-based replacement. -/
def index (st : ExecState) (docs : List Doc) : ExecState × List Doc :=
  ({ st with index := st.index ++ docs }, [])

/-- The `/list` endpoint: `self.index[offset : offset + limit]` projected
to lightweight documents, with `limit` defaulting to `sys.maxsize` and
`offset` to `0`. -/
def list (st : ExecState) (p : Params) : List Doc :=
  let limit := p.limit.getD maxsize
  let offset := p.offset.getD 0
  ((st.index.drop offset).take limit).map lightweightDoc

/-- The in-place rewriting of one `$and` conjunct inside `filter_docs`:
`tag = list(query.keys())[0]; query['tags__' + tag] = query[tag];
del query[tag]`.  Only the first key is rewritten; an empty conjunct
raises `IndexError`. -/
def translateLeaf (q : FilterLeaf) : Except String FilterLeaf :=
  match q with
  | [] => .error "IndexError: list index out of range"
  | (k, v) :: rest => .ok (dictDel (dictSet ((k, v) :: rest) ("tags__" ++ k) v) k)

/-- The loop `for query in filter['$and']` of `filter_docs`: rewrites the
conjuncts one after the other, the first failure aborting the request. -/
def translateClauses : List FilterLeaf → Except String (List FilterLeaf)
  | [] => .ok []
  | q :: qs =>
    match translateLeaf q with
    | .error e => .error e
    | .ok q2 =>
      match translateClauses qs with
      | .error e => .error e
      | .ok qs2 => .ok (q2 :: qs2)

/-- The filter-rewriting step of `filter_docs`: when the filter has a
top-level `$and` entry, each of its conjuncts is rewritten by
`translateLeaf`; otherwise the filter is left untouched. -/
def translateFilter (f : QFilter) : Except String QFilter :=
  match f.andClauses with
  | some leaves =>
    match translateClauses leaves with
    | .error e => .error e
    | .ok ls => .ok { f with andClauses := some ls }
  | none => .ok f

/-- `DocarrayIndexerV3.filter_docs`: rewrites the `filter` parameter
(default `{}`) and runs `self.index.find(filter=...)` on the given index
array. -/
def filter_docs (idx : List Doc) (p : Params) : Except String (List Doc) :=
  match translateFilter p.filter with
  | .error e => .error e
  | .ok f => findWithFilter idx f

/-- The inner loop of `merge_matches` for one document's match list:
matches whose `parent_id` was already collected are skipped, otherwise the
parent is looked up in `self.index` (`KeyError` when absent), deep-copied,
stripped of its chunks and appended, and the loop breaks once `limit`
parents were collected.  The deep copy is implicit in the value semantics
of the embedding. -/
def collectParents (idx : List Doc) (limit : Nat) :
    List Doc → List Doc → List String → Except String (List Doc)
  | [], parents, _ => .ok parents
  | m :: ms, parents, pids =>
    if m.parentId ∈ pids then collectParents idx limit ms parents pids
    else
      match lookupId idx m.parentId with
      | none => .error ("KeyError: " ++ m.parentId)
      | some parent =>
        let parents' := parents ++ [parent.setChunks []]
        if parents'.length = limit then .ok parents'
        else collectParents idx limit ms parents' (pids ++ [m.parentId])

/-- `DocarrayIndexerV3.merge_matches`: replaces each document's match list
by the deduplicated list of (chunk-stripped copies of) parent documents,
looked up in the given index array. -/
def merge_matches (idx : List Doc) (docs : List Doc) (limit : Nat) :
    Except String (List Doc) :=
  match docs with
  | [] => .ok []
  | d :: ds =>
    match collectParents idx limit d.matchList [] [] with
    | .error e => .error e
    | .ok parents =>
      match merge_matches idx ds limit with
      | .error e => .error e
      | .ok rest => .ok (d.setMatches parents :: rest)

/-- `DocarrayIndexerV3.search`.  Note the statement
`self.index = self.index[traversal_paths]`: the executor reassigns its
stored index to the traversal result before filtering and matching, and
that reassignment persists in the returned state even when a later step
raises.  For `traversal_paths == "@c"` the query side is
`docs[0].chunks` (`IndexError` on an empty batch), the match limit is
`limit * 10`, and `merge_matches` runs on the matched chunks; otherwise
the query documents are matched directly with limit `limit`
(default `20`). -/
def search (score : Doc → Doc → Int) (st : ExecState) (docs : List Doc) (p : Params) :
    ExecState × Except String (List Doc) :=
  let limit := p.limit.getD 20
  let tp := p.traversal_paths.getD st.traversal_paths
  match docTraverse st.index tp with
  | .error e => (st, .error e)
  | .ok newIdx =>
    let st' := { st with index := newIdx }
    match filter_docs newIdx p with
    | .error e => (st', .error e)
    | .ok filtered =>
      let matchLimit := if tp = "@c" then limit * 10 else limit
      if tp = "@c" then
        match docs with
        | [] => (st', .error "IndexError: list index out of range")
        | q :: _ =>
          let qcs := q.chunks.map (fun c => c.setMatches (matchTop score c filtered matchLimit))
          match merge_matches newIdx qcs limit with
          | .error e => (st', .error e)
          | .ok merged => (st', .ok merged)
      else
        (st', .ok (docs.map (fun d => d.setMatches (matchTop score d filtered matchLimit))))

/-- `DocarrayIndexerV3.delete`: selects the victims with `filter_docs`
(the only parameter it reads is `filter`) and removes each of them from
the stored index in turn. -/
def delete (st : ExecState) (p : Params) : Except String ExecState :=
  match filter_docs st.index p with
  | .error e => .error e
  | .ok filtered => .ok { st with index := filtered.foldl removeFirst st.index }

end DocarrayIndexerV3

/-! ## The Elasticsearch mapping builder

The class implementing it (`now/executor/indexer/elastic/elastic_indexer.py`)
is not among the provided sources; only its test
(`src/tests/executor/indexer/elastic/test_executor.py`,
`test_generate_es_mappings`) is.  The builder is therefore modelled from
the specification and checked against the expected mapping spelled out in
that test. -/

/-- A nested Elasticsearch mapping value: either a string scalar or an
object (an insertion-ordered dict).  Python compares dicts without regard
to order; the generated and expected mappings below agree entry for entry
in the same order, so the stronger ordered equality is used. -/
inductive ESValue where
  | str (s : String)
  | obj (entries : List (String × ESValue))
deriving Repr

/-- Modelled from the spec: the `FieldEmbedding` configuration triple
`(encoder_name, embedding_dimension, document_fields)` used by the test as
for example `FieldEmbedding('clip', 8, ['title'])`. -/
structure FieldEmbedding where
  encoder : String
  dim : Nat
  fields : List String
deriving Repr

namespace NOWElasticIndexer

/-- Modelled from the spec: `NOWElasticIndexer.generate_es_mapping`, which
is not among the provided sources.  Per the spec it emits one keyword `id`
field, one analyzed `bm25_text` text field, and, for every
`(document_field, encoder)` pair of the configuration in order, a vector
sub-object named `"<document_field>-<encoder>"` shaped as
`{properties: {embedding: {type: dense_vector, dims: "<n>",
similarity: <metric>, index: "true"}}}` with the dimension encoded as a
string. -/
def generate_es_mapping (document_mappings : List FieldEmbedding)
    (metric : String) : ESValue :=
  .obj [("properties", .obj (
    [("id", .obj [("type", .str "keyword")]),
     ("bm25_text", .obj [("type", .str "text"), ("analyzer", .str "standard")])]
    ++ document_mappings.flatMap (fun fe =>
        fe.fields.map (fun f =>
          (f ++ "-" ++ fe.encoder,
           ESValue.obj [("properties", .obj [("embedding", .obj [
             ("type", .str "dense_vector"),
             ("dims", .str (toString fe.dim)),
             ("similarity", .str metric),
             ("index", .str "true")])])])))))]

end NOWElasticIndexer

/-! ## Concrete documents, states and parameters

Used by the counterexamples and by the witnesses that instantiate the
theorems below. -/

/-- Shorthand for a one-operator equality predicate `{"$eq": v}`. -/
def eqPred (v : String) : OpDict := [("$eq", TagValue.str v)]

/-- A stored chunk of parent `"pp"`. -/
def chunkCC : Doc := .mk "cc" "" [] "pp" [1] [] []

/-- A stored parent document holding one chunk. -/
def parentPP : Doc := .mk "pp" "u" [("color", .str "red")] "" [] [chunkCC] []

/-- Executor state holding the single parent `parentPP`. -/
def stPP : ExecState := { traversal_paths := "@r", index := [parentPP] }

/-- A query document with no chunks. -/
def queryNoChunks : Doc := .mk "q" "" [] "" [] [] []

/-- A stored chunk of parent `"p"`. -/
def chunkC1 : Doc := .mk "c1" "" [] "p" [1] [] []

/-- A stored chunk whose own id collides with the parent id `"p"` (after
the executor's index reassignment, parent lookups resolve inside the chunk
array, so a successful chunk-level search needs such a collision). -/
def chunkC2 : Doc := .mk "p" "" [] "p" [2] [] []

/-- A stored parent document holding the two chunks above. -/
def parentP : Doc := .mk "p" "u" [("color", .str "red")] "" [] [chunkC1, chunkC2] []

/-- Executor state holding the single parent `parentP`. -/
def stP : ExecState := { traversal_paths := "@r", index := [parentP] }

/-- A query chunk. -/
def queryChunk : Doc := .mk "qc" "" [] "" [3] [] []

/-- A query document holding one chunk. -/
def queryWithChunk : Doc := .mk "q" "" [] "" [] [queryChunk] []

/-- A second query document, used to vary the tail of a query batch. -/
def queryExtra : Doc := .mk "q2" "" [] "" [7] [.mk "qc2" "" [] "" [9] [] []] []

/-- Plain stored documents with ids `"a"`, `"b"`, `"c"`. -/
def docA : Doc := .mk "a" "" [] "" [] [] []

/-- Second plain stored document. -/
def docB : Doc := .mk "b" "" [] "" [] [] []

/-- Third plain stored document. -/
def docC : Doc := .mk "c" "" [] "" [] [] []

/-- A re-indexed version of `docA`: same id, different tags. -/
def docA2 : Doc := .mk "a" "" [("v", .str "2")] "" [] [] []

/-- A stored document carrying the tag `x = "1"`. -/
def docX : Doc := .mk "x" "" [("x", .str "1")] "" [] [] []

/-- A stored document without that tag. -/
def docY : Doc := .mk "y" "" [("x", .str "2")] "" [] [] []

/-- A two-key `$and` conjunct — not the supported single-operator leaf
shape. -/
def badFilter : QFilter :=
  { andClauses := some [[("a", eqPred "1"), ("b", eqPred "2")]] }

/-- What `filter_docs` actually turns `badFilter` into: only the first key
`a` is rewritten (and moved to the end of the conjunct); `b` is left
untranslated. -/
def badFilterTranslated : QFilter :=
  { andClauses := some [[("b", eqPred "2"), ("tags__a", eqPred "1")]] }

/-- Executor state holding the three plain documents. -/
def stABC : ExecState := { traversal_paths := "@r", index := [docA, docB, docC] }

/-- Search parameters selecting chunk-level matching with limit 1. -/
def paramsChunk1 : Params := { limit := some 1, traversal_paths := some "@c" }

/-- The output of the successful chunk-level search used by the witnesses:
the query chunk carrying one merged parent (the chunk `chunkC2`, which the
parent lookup resolves inside the reassigned chunk index). -/
def chunkSearchOut : List Doc := [queryChunk.setMatches [chunkC2.setChunks []]]

/-! ## Helper lemmas -/

namespace Doc

@[simp] theorem id_mk (i u t p e c m) : (Doc.mk i u t p e c m).id = i := rfl

@[simp] theorem uri_mk (i u t p e c m) : (Doc.mk i u t p e c m).uri = u := rfl

@[simp] theorem tags_mk (i u t p e c m) : (Doc.mk i u t p e c m).tags = t := rfl

@[simp] theorem parentId_mk (i u t p e c m) : (Doc.mk i u t p e c m).parentId = p := rfl

@[simp] theorem chunks_mk (i u t p e c m) : (Doc.mk i u t p e c m).chunks = c := rfl

@[simp] theorem matchList_mk (i u t p e c m) : (Doc.mk i u t p e c m).matchList = m := rfl

@[simp] theorem id_setChunks (d : Doc) (cs) : (d.setChunks cs).id = d.id := by
  cases d; rfl

@[simp] theorem id_setMatches (d : Doc) (ms) : (d.setMatches ms).id = d.id := by
  cases d; rfl

@[simp] theorem matchList_setMatches (d : Doc) (ms) : (d.setMatches ms).matchList = ms := by
  cases d; rfl

@[simp] theorem tags_setMatches (d : Doc) (ms) : (d.setMatches ms).tags = d.tags := by
  cases d; rfl

@[simp] theorem chunks_setMatches (d : Doc) (ms) : (d.setMatches ms).chunks = d.chunks := by
  cases d; rfl

end Doc

/-- The rewritten key of a filter conjunct always differs from the
original key (it is six characters longer). -/
theorem tags_key_ne (k : String) : ("tags__" ++ k) ≠ k := by
  intro h
  have hl := congrArg String.length h
  rw [String.length_append] at hl
  have h6 : ("tags__" : String).length = 6 := rfl
  rw [h6] at hl
  omega

/-- An id lookup that succeeds returns a document carrying that id. -/
theorem lookupId_id {idx : List Doc} {pid : String} {d : Doc}
    (h : lookupId idx pid = some d) : d.id = pid := by
  have hfind := List.find?_some h
  exact eq_of_beq hfind

/-- A list element that is not `BEq`-equal to the removed document
survives `removeFirst`. -/
theorem mem_removeFirst {d m : Doc} :
    ∀ {l : List Doc}, d ∈ l → (d == m) = false → d ∈ removeFirst l m := by
  intro l
  induction l with
  | nil => intro h _; exact absurd h (List.not_mem_nil d)
  | cons x xs ih =>
    intro hmem hne
    rw [removeFirst]
    by_cases hx : (x == m) = true
    · simp only [hx, if_true]
      rcases List.mem_cons.mp hmem with h | h
      · subst h; rw [hx] at hne; cases hne
      · exact h
    · simp only [hx, if_false, Bool.false_eq_true]
      rcases List.mem_cons.mp hmem with h | h
      · subst h; exact List.mem_cons_self _ _
      · exact List.mem_cons_of_mem _ (ih h hne)

/-- A stored document that is not `BEq`-equal to any of the documents
being removed survives the whole removal loop. -/
theorem mem_foldl_removeFirst {d : Doc} :
    ∀ (ms l : List Doc), d ∈ l → (∀ m ∈ ms, (d == m) = false) →
      d ∈ ms.foldl removeFirst l := by
  intro ms
  induction ms with
  | nil => intro l h _; simpa using h
  | cons m ms ih =>
    intro l hmem hall
    rw [List.foldl_cons]
    exact ih _ (mem_removeFirst hmem (hall m (by simp)))
      (fun x hx => hall x (by simp [hx]))

/-- Invariant of the `merge_matches` inner loop: starting below the limit
with the parent-id bookkeeping consistent and duplicate-free, a successful
run returns at most `limit` parents with pairwise distinct ids. -/
theorem collectParents_spec (idx : List Doc) (L : Nat) :
    ∀ (ms parents : List Doc) (pids : List String) (res : List Doc),
      parents.length < L → parents.map Doc.id = pids → pids.Nodup →
      DocarrayIndexerV3.collectParents idx L ms parents pids = .ok res →
      res.length ≤ L ∧ (res.map Doc.id).Nodup := by
  intro ms
  induction ms with
  | nil =>
    intro parents pids res hlt hmap hnd h
    rw [DocarrayIndexerV3.collectParents] at h
    cases h
    exact ⟨Nat.le_of_lt hlt, hmap ▸ hnd⟩
  | cons m ms ih =>
    intro parents pids res hlt hmap hnd h
    rw [DocarrayIndexerV3.collectParents] at h
    by_cases hmem : m.parentId ∈ pids
    · rw [if_pos hmem] at h
      exact ih parents pids res hlt hmap hnd h
    · rw [if_neg hmem] at h
      cases hlook : lookupId idx m.parentId with
      | none => rw [hlook] at h; cases h
      | some parent =>
        rw [hlook] at h
        dsimp only at h
        have hpid : (parent.setChunks []).id = m.parentId := by
          rw [Doc.id_setChunks]; exact lookupId_id hlook
        have hmap' : (parents ++ [parent.setChunks []]).map Doc.id = pids ++ [m.parentId] := by
          rw [List.map_append, hmap, List.map_singleton, hpid]
        have hnd' : (pids ++ [m.parentId]).Nodup := by
          rw [List.nodup_append]
          exact ⟨hnd, List.nodup_singleton _, by simpa using hmem⟩
        by_cases hL : (parents ++ [parent.setChunks []]).length = L
        · rw [if_pos hL] at h
          cases h
          exact ⟨Nat.le_of_eq hL, hmap' ▸ hnd'⟩
        · rw [if_neg hL] at h
          apply ih _ _ res _ hmap' hnd' h
          have hlen : (parents ++ [parent.setChunks []]).length = parents.length + 1 := by
            simp
          rw [hlen] at hL ⊢
          omega

/-- Every document returned by a successful `merge_matches` carries at
most `limit` matches, and their ids are pairwise distinct. -/
theorem merge_matches_spec (idx : List Doc) (L : Nat) (hL : 1 ≤ L) :
    ∀ (ds out : List Doc), DocarrayIndexerV3.merge_matches idx ds L = .ok out →
      ∀ d ∈ out, d.matchList.length ≤ L ∧ (d.matchList.map Doc.id).Nodup := by
  intro ds
  induction ds with
  | nil =>
    intro out h d hd
    rw [DocarrayIndexerV3.merge_matches] at h
    cases h
    cases hd
  | cons x xs ih =>
    intro out h d hd
    rw [DocarrayIndexerV3.merge_matches] at h
    cases hc : DocarrayIndexerV3.collectParents idx L x.matchList [] [] with
    | error e => rw [hc] at h; cases h
    | ok parents =>
      rw [hc] at h
      cases hr : DocarrayIndexerV3.merge_matches idx xs L with
      | error e => rw [hr] at h; cases h
      | ok rest =>
        rw [hr] at h
        cases h
        rcases List.mem_cons.mp hd with h1 | h1
        · subst h1
          rw [Doc.matchList_setMatches]
          exact collectParents_spec idx L x.matchList [] [] parents
            (by simp only [List.length_nil]; omega) rfl List.nodup_nil hc
        · exact ih rest hr d h1

/-- The first conjunct key is rewritten to `tags__<key>` (moved to the end
of the conjunct dict) and every later entry is left untouched, provided
neither the original nor the rewritten key collides with a later entry. -/
theorem translateLeaf_cons (k1 : String) (v1 : OpDict) (rest : FilterLeaf)
    (h1 : ("tags__" ++ k1) ∉ rest.map Prod.fst)
    (h2 : k1 ∉ rest.map Prod.fst) :
    DocarrayIndexerV3.translateLeaf ((k1, v1) :: rest)
      = .ok (rest ++ [("tags__" ++ k1, v1)]) := by
  rw [DocarrayIndexerV3.translateLeaf]
  have hany : (((k1, v1) :: rest).any (fun e => e.1 = ("tags__" ++ k1))) = false := by
    rw [List.any_eq_false]
    intro e he
    simp only [decide_eq_true_eq]
    intro hk
    rcases List.mem_cons.mp he with h | h
    · subst h
      exact tags_key_ne k1 hk.symm
    · exact h1 (hk ▸ List.mem_map_of_mem Prod.fst h)
  have hfil : rest.filter (fun e => e.1 ≠ k1) = rest := by
    apply List.filter_eq_self.mpr
    intro e he
    have hne : e.1 ≠ k1 := fun hk => h2 (hk ▸ List.mem_map_of_mem Prod.fst he)
    simp [hne]
  unfold dictSet dictDel
  rw [hany]
  simp only [Bool.false_eq_true, if_false, List.filter_append, List.filter_cons, hfil]
  simp [tags_key_ne k1]

/-- On conjuncts holding exactly one key, the rewrite loop of
`filter_docs` succeeds and prefixes every key. -/
theorem translateClauses_singletons (ls : List (String × OpDict)) :
    DocarrayIndexerV3.translateClauses (ls.map (fun kv => [kv]))
      = .ok (ls.map (fun kv => [("tags__" ++ kv.1, kv.2)])) := by
  induction ls with
  | nil => rfl
  | cons kv tl ih =>
    rw [List.map_cons, DocarrayIndexerV3.translateClauses]
    have hleaf := translateLeaf_cons kv.1 kv.2 [] (by simp) (by simp)
    simp only [List.nil_append] at hleaf
    rw [hleaf, ih]
    rfl

/-! ## Claim theorems -/

/-- C1: for every chunk-level search (`traversal_paths` resolving to
`"@c"`) with positive limit `L` that returns a result, the match list
attached to each returned query document holds at most `L` entries and no
parent id appears twice in it, whatever the underlying scorer returned
(the match step runs with limit `L * 10`, so more than `L` chunks of fewer
than `L` distinct parents may feed the merge). -/
theorem claim_C1_chunk_search_dedup (score : Doc → Doc → Int) (st : ExecState)
    (qdocs : List Doc) (p : Params) (out : List Doc)
    (htp : p.traversal_paths.getD st.traversal_paths = "@c")
    (hlim : 1 ≤ p.limit.getD 20)
    (h : (DocarrayIndexerV3.search score st qdocs p).2 = .ok out) :
    ∀ d ∈ out, d.matchList.length ≤ p.limit.getD 20
      ∧ (d.matchList.map Doc.id).Nodup := by
  unfold DocarrayIndexerV3.search at h
  dsimp only at h
  rw [htp] at h
  have hdt : docTraverse st.index "@c" = .ok (st.index.flatMap Doc.chunks) := rfl
  rw [hdt] at h
  dsimp only at h
  cases hfd : DocarrayIndexerV3.filter_docs (st.index.flatMap Doc.chunks) p with
  | error e => rw [hfd] at h; cases h
  | ok filtered =>
    rw [hfd] at h
    dsimp only at h
    rw [if_pos rfl] at h
    cases qdocs with
    | nil => cases h
    | cons q qs =>
      dsimp only at h
      cases hm : DocarrayIndexerV3.merge_matches (st.index.flatMap Doc.chunks)
          (q.chunks.map (fun c =>
            c.setMatches (matchTop score c filtered
              (if "@c" = "@c" then p.limit.getD 20 * 10 else p.limit.getD 20))))
          (p.limit.getD 20) with
      | error e => rw [hm] at h; cases h
      | ok merged =>
        rw [hm] at h
        cases h
        exact merge_matches_spec (st.index.flatMap Doc.chunks) (p.limit.getD 20) hlim _ _ hm

/-- Witness for C1: a concrete chunk-level search with limit 1 that
succeeds (the chunk index contains a document whose id equals the chunks'
parent id, so the parent lookup resolves) and whose single returned query
chunk carries exactly one deduplicated match. -/
theorem claim_C1_witness :
    1 ≤ paramsChunk1.limit.getD 20
    ∧ (DocarrayIndexerV3.search dotScore stP [queryWithChunk] paramsChunk1).2
        = .ok chunkSearchOut
    ∧ ∀ d ∈ chunkSearchOut,
        d.matchList.length ≤ paramsChunk1.limit.getD 20
        ∧ (d.matchList.map Doc.id).Nodup :=
  ⟨by decide, rfl,
    claim_C1_chunk_search_dedup dotScore stP [queryWithChunk] paramsChunk1
      chunkSearchOut rfl (by decide) rfl⟩

/-- C2: the claim says the search operation never mutates the store; in
the code, `self.index = self.index[traversal_paths]` permanently replaces
the stored index by the traversal result.  Evaluating the embedded search
at the failing input (one stored parent with one chunk, a chunk-level
request): the call succeeds, yet afterwards the store holds only the chunk
`"cc"` and the parent `"pp"` is gone. -/
theorem claim_C2_search_mutates_store :
    (DocarrayIndexerV3.search dotScore stPP [queryNoChunks]
        { traversal_paths := some "@c" }).2 = .ok []
    ∧ ((DocarrayIndexerV3.search dotScore stPP [queryNoChunks]
        { traversal_paths := some "@c" }).1.index.map Doc.id) = ["cc"]
    ∧ stPP.index.map Doc.id = ["pp"]
    ∧ (["cc"] : List String) ≠ ["pp"] :=
  ⟨rfl, rfl, rfl, by decide⟩

/-- C3 counterexample: re-indexing a document whose id `"a"` is already
stored leaves the store with two documents carrying that id — the old
version (with its old tags) is still present, not replaced. -/
theorem claim_C3_counterexample :
    ((DocarrayIndexerV3.index { traversal_paths := "@r", index := [docA] }
        [docA2]).1.index.filter (fun d => d.id == "a")).length = 2
    ∧ docA ∈ (DocarrayIndexerV3.index { traversal_paths := "@r", index := [docA] }
        [docA2]).1.index
    ∧ docA.tags ≠ docA2.tags := by
  refine ⟨rfl, ?_, by decide⟩
  show docA ∈ [docA, docA2]
  exact List.mem_cons_self _ _

/-- C3 amended: the index operation appends the incoming documents to the
store without any id-based replacement; when an incoming document's id is
already stored, the store afterwards holds the old version unchanged and
at least two documents with that id. -/
theorem claim_C3_index_appends (st : ExecState) (docs : List Doc) :
    (DocarrayIndexerV3.index st docs).1.index = st.index ++ docs
    ∧ (DocarrayIndexerV3.index st docs).2 = []
    ∧ ∀ d ∈ st.index, ∀ e ∈ docs, e.id = d.id →
        d ∈ (DocarrayIndexerV3.index st docs).1.index
        ∧ 2 ≤ ((DocarrayIndexerV3.index st docs).1.index.filter
            (fun x => x.id == d.id)).length := by
  refine ⟨rfl, rfl, ?_⟩
  intro d hd e he hid
  constructor
  · show d ∈ st.index ++ docs
    exact List.mem_append_left _ hd
  · show 2 ≤ ((st.index ++ docs).filter (fun x => x.id == d.id)).length
    rw [List.filter_append, List.length_append]
    have hmem1 : d ∈ st.index.filter (fun x => x.id == d.id) :=
      List.mem_filter.2 ⟨hd, by simp⟩
    have hmem2 : e ∈ docs.filter (fun x => x.id == d.id) :=
      List.mem_filter.2 ⟨he, by simp [hid]⟩
    have hp1 := List.length_pos_of_mem hmem1
    have hp2 := List.length_pos_of_mem hmem2
    omega

/-- Witness for C3's amended theorem at a concrete input: store `[docA]`,
incoming `[docA2]` with the same id. -/
theorem claim_C3_witness :
    docA ∈ (DocarrayIndexerV3.index { traversal_paths := "@r", index := [docA] }
        [docA2]).1.index
    ∧ 2 ≤ ((DocarrayIndexerV3.index { traversal_paths := "@r", index := [docA] }
        [docA2]).1.index.filter (fun x => x.id == docA.id)).length :=
  (claim_C3_index_appends { traversal_paths := "@r", index := [docA] } [docA2]).2.2
    docA (by simp) docA2 (by simp) rfl

/-- C4 counterexample: the delete endpoint never reads an `ids` parameter.
Called with `{ids: ["a"]}` on a store holding `"a"`, `"b"`, `"c"`, the
filter defaults to `{}`, which selects every document, and the whole store
is removed — in particular `docC`, whose id is not in the list. -/
theorem claim_C4_counterexample :
    DocarrayIndexerV3.delete { traversal_paths := "@r", index := [docA, docB, docC] }
        { ids := some ["a"] }
      = .ok { traversal_paths := "@r", index := [] }
    ∧ docC ∈ ([docA, docB, docC] : List Doc)
    ∧ docC.id ∉ (["a"] : List String) :=
  ⟨rfl, by simp, by decide⟩

/-- C4 amended: delete selects its victims solely through the `filter`
parameter — an `ids` list is ignored entirely (the empty default filter
matches every document).  A filter matching no stored document leaves the
store unchanged (a no-op, not an error), and every stored document not
content-equal to a selected one survives. -/
theorem claim_C4_delete_filter_only (st : ExecState) (p : Params)
    (i2 : Option (List String)) :
    DocarrayIndexerV3.delete st p = DocarrayIndexerV3.delete st { p with ids := i2 }
    ∧ (DocarrayIndexerV3.filter_docs st.index p = .ok [] →
        DocarrayIndexerV3.delete st p = .ok st)
    ∧ ∀ ms d, DocarrayIndexerV3.filter_docs st.index p = .ok ms → d ∈ st.index →
        (∀ m ∈ ms, (d == m) = false) →
        ∃ st2, DocarrayIndexerV3.delete st p = .ok st2 ∧ d ∈ st2.index := by
  refine ⟨rfl, ?_, ?_⟩
  · intro h
    unfold DocarrayIndexerV3.delete
    rw [h]
    rfl
  · intro ms d hms hd hall
    refine ⟨{ st with index := ms.foldl removeFirst st.index }, ?_, ?_⟩
    · unfold DocarrayIndexerV3.delete
      rw [hms]
    · exact mem_foldl_removeFirst ms st.index hd hall

/-- Witness for C4's amended theorem: a store of two tagged documents and
a filter matching only the first; the second survives the delete. -/
theorem claim_C4_witness :
    ∃ st2, DocarrayIndexerV3.delete { traversal_paths := "@r", index := [docX, docY] }
        { filter := { andClauses := some [[("x", eqPred "1")]] } } = .ok st2
      ∧ docY ∈ st2.index :=
  (claim_C4_delete_filter_only { traversal_paths := "@r", index := [docX, docY] }
      { filter := { andClauses := some [[("x", eqPred "1")]] } } none).2.2
    [docX] docY rfl (by simp)
    (fun m hm => by rw [List.mem_singleton] at hm; subst hm; decide)

/-- C5 counterexample: a `$and` filter whose conjunct holds two keys is
not of the supported single-operator-leaf shape, yet the operation does
not fail with a filter error: the translator rewrites just the first key
(a partial translation) and the delete request completes normally. -/
theorem claim_C5_counterexample :
    DocarrayIndexerV3.translateFilter badFilter = .ok badFilterTranslated
    ∧ DocarrayIndexerV3.delete { traversal_paths := "@r", index := [] }
        { filter := badFilter }
      = .ok { traversal_paths := "@r", index := [] } :=
  ⟨rfl, rfl⟩

/-- C5 amended: the translator performs no shape check at all — in a
`$and` filter it rewrites exactly the first key of each conjunct
(moving it to the end) and leaves every other key untouched, and a filter
without a top-level `$and` entry is handed to the backend untranslated
without an error. -/
theorem claim_C5_partial_translation (idx : List Doc) (k1 : String) (v1 : OpDict)
    (rest : FilterLeaf) (pl : List (String × OpDict))
    (h1 : ("tags__" ++ k1) ∉ rest.map Prod.fst)
    (h2 : k1 ∉ rest.map Prod.fst) :
    DocarrayIndexerV3.translateLeaf ((k1, v1) :: rest)
      = .ok (rest ++ [("tags__" ++ k1, v1)])
    ∧ DocarrayIndexerV3.filter_docs idx { filter := { andClauses := none, plain := pl } }
      = findWithFilter idx { andClauses := none, plain := pl } :=
  ⟨translateLeaf_cons k1 v1 rest h1 h2, rfl⟩

/-- Witness for C5's amended theorem: the two-key conjunct of `badFilter`
gets exactly its first key rewritten, and a plain (non-`$and`) filter is
passed through unchanged. -/
theorem claim_C5_witness :
    DocarrayIndexerV3.translateLeaf [("a", eqPred "1"), ("b", eqPred "2")]
      = .ok [("b", eqPred "2"), ("tags__a", eqPred "1")]
    ∧ DocarrayIndexerV3.filter_docs [docA]
        { filter := { andClauses := none, plain := [("id", eqPred "a")] } }
      = findWithFilter [docA] { andClauses := none, plain := [("id", eqPred "a")] } :=
  ⟨(claim_C5_partial_translation [docA] "a" (eqPred "1") [("b", eqPred "2")] []
      (by decide) (by decide)).1,
   (claim_C5_partial_translation [docA] "a" (eqPred "1") [] [("id", eqPred "a")]
      (by decide) (by decide)).2⟩

/-- C6: `list` returns the stored documents in insertion order as
lightweight projections, skipping the first `offset` (default 0) and
keeping at most `limit` (default `sys.maxsize`); an offset at or beyond
the store size yields `[]`, `limit = 1` on a nonempty store yields exactly
one document, and `offset = 1` yields exactly `N - 1`. -/
theorem claim_C6_list_pagination (st : ExecState) (lim off : Nat) :
    DocarrayIndexerV3.list st { limit := some lim, offset := some off }
        = ((st.index.drop off).take lim).map lightweightDoc
    ∧ (st.index.length ≤ off →
        DocarrayIndexerV3.list st { limit := some lim, offset := some off } = [])
    ∧ (st.index.length ≤ maxsize →
        DocarrayIndexerV3.list st {} = st.index.map lightweightDoc)
    ∧ (1 ≤ st.index.length →
        (DocarrayIndexerV3.list st { limit := some 1 }).length = 1)
    ∧ (1 ≤ st.index.length → st.index.length ≤ maxsize →
        (DocarrayIndexerV3.list st { offset := some 1 }).length = st.index.length - 1) := by
  refine ⟨rfl, ?_, ?_, ?_, ?_⟩
  · intro h
    show ((st.index.drop off).take lim).map lightweightDoc = []
    rw [List.drop_eq_nil_of_le h]
    simp
  · intro h
    show ((st.index.drop 0).take maxsize).map lightweightDoc = st.index.map lightweightDoc
    rw [List.drop_zero, List.take_of_length_le h]
  · intro h
    show (((st.index.drop 0).take 1).map lightweightDoc).length = 1
    rw [List.drop_zero, List.length_map, List.length_take]
    omega
  · intro h1 h2
    show (((st.index.drop 1).take maxsize).map lightweightDoc).length = st.index.length - 1
    rw [List.length_map, List.length_take, List.length_drop]
    omega

/-- Witness for C6 on a store of three documents. -/
theorem claim_C6_witness :
    (DocarrayIndexerV3.list stABC { limit := some 1 }).length = 1
    ∧ (DocarrayIndexerV3.list stABC { offset := some 1 }).length = stABC.index.length - 1
    ∧ DocarrayIndexerV3.list stABC { limit := some 7, offset := some 5 } = []
    ∧ DocarrayIndexerV3.list stABC {} = stABC.index.map lightweightDoc :=
  ⟨(claim_C6_list_pagination stABC 7 5).2.2.2.1 (by decide),
   (claim_C6_list_pagination stABC 7 5).2.2.2.2 (by decide) (by decide),
   (claim_C6_list_pagination stABC 7 5).2.1 (by decide),
   (claim_C6_list_pagination stABC 7 5).2.2.1 (by decide)⟩

/-- C7: indexing a document and then listing with default parameters
returns a document with the same id and the same tags. -/
theorem claim_C7_roundtrip (st : ExecState) (d : Doc)
    (h : st.index.length + 1 ≤ maxsize) :
    ∃ r ∈ DocarrayIndexerV3.list (DocarrayIndexerV3.index st [d]).1 {},
      r.id = d.id ∧ r.tags = d.tags := by
  refine ⟨lightweightDoc d, ?_, rfl, rfl⟩
  show lightweightDoc d ∈ (((st.index ++ [d]).drop 0).take maxsize).map lightweightDoc
  rw [List.drop_zero, List.take_of_length_le (by simpa using h)]
  exact List.mem_map_of_mem _ (by simp)

/-- Witness for C7 at a concrete store and document. -/
theorem claim_C7_witness :
    ∃ r ∈ DocarrayIndexerV3.list (DocarrayIndexerV3.index stABC [docX]).1 {},
      r.id = docX.id ∧ r.tags = docX.tags :=
  claim_C7_roundtrip stABC docX (by decide)

/-- C8: generating the mapping for `{clip: dim 8 over [title], sbert:
dim 5 over [title, excerpt]}` with the cosine metric yields exactly the
keyword `id` field, the analyzed `bm25_text` text field, and the vector
sub-fields `title-clip`, `title-sbert`, `excerpt-sbert` with dims `"8"`,
`"5"`, `"5"` (strings), and nothing else — the expected mapping of
`test_generate_es_mappings`. -/
theorem claim_C8_generate_es_mapping :
    NOWElasticIndexer.generate_es_mapping
        [{ encoder := "clip", dim := 8, fields := ["title"] },
         { encoder := "sbert", dim := 5, fields := ["title", "excerpt"] }]
        "cosine"
      = .obj [("properties", .obj
          [("id", .obj [("type", .str "keyword")]),
           ("bm25_text", .obj [("type", .str "text"), ("analyzer", .str "standard")]),
           ("title-clip", .obj [("properties", .obj [("embedding", .obj
              [("type", .str "dense_vector"), ("dims", .str "8"),
               ("similarity", .str "cosine"), ("index", .str "true")])])]),
           ("title-sbert", .obj [("properties", .obj [("embedding", .obj
              [("type", .str "dense_vector"), ("dims", .str "5"),
               ("similarity", .str "cosine"), ("index", .str "true")])])]),
           ("excerpt-sbert", .obj [("properties", .obj [("embedding", .obj
              [("type", .str "dense_vector"), ("dims", .str "5"),
               ("similarity", .str "cosine"), ("index", .str "true")])])])])] := rfl

/-- C9: for a filter of the supported shape — a top-level `$and` whose
conjuncts each hold a single key — `filter_docs` prefixes every key with
`tags__`, keeps each operator dictionary (operator and value) unchanged,
and only then applies the translated filter to the candidate set. -/
theorem claim_C9_filter_translation (idx : List Doc) (ls pl : List (String × OpDict)) :
    DocarrayIndexerV3.filter_docs idx
        { filter := { andClauses := some (ls.map (fun kv => [kv])), plain := pl } }
      = findWithFilter idx
          { andClauses := some (ls.map (fun kv => [("tags__" ++ kv.1, kv.2)])),
            plain := pl } := by
  unfold DocarrayIndexerV3.filter_docs DocarrayIndexerV3.translateFilter
  dsimp only
  rw [translateClauses_singletons]

/-- C10: in a chunk-level search only `docs[0]` is used — the returned
state and result are unchanged when the query documents after the first
are replaced by anything else. -/
theorem claim_C10_first_query_only (score : Doc → Doc → Int) (st : ExecState)
    (q : Doc) (rest1 rest2 : List Doc) (p : Params)
    (htp : p.traversal_paths.getD st.traversal_paths = "@c") :
    DocarrayIndexerV3.search score st (q :: rest1) p
      = DocarrayIndexerV3.search score st (q :: rest2) p := by
  unfold DocarrayIndexerV3.search
  dsimp only
  rw [htp]
  rfl

/-- Witness for C10: appending a second query document to a concrete
chunk-level search changes nothing. -/
theorem claim_C10_witness :
    paramsChunk1.traversal_paths.getD stP.traversal_paths = "@c"
    ∧ DocarrayIndexerV3.search dotScore stP [queryWithChunk] paramsChunk1
      = DocarrayIndexerV3.search dotScore stP [queryWithChunk, queryExtra] paramsChunk1 :=
  ⟨rfl, claim_C10_first_query_only dotScore stP queryWithChunk [] [queryExtra]
      paramsChunk1 rfl⟩
